import Mathlib

/-!
A verification development for the `zod-deep-partial` repository.

The repository exports one runtime operation, `zodDeepPartial` (entry point
over the recursive worker `zodDeepPartialInternal`), which walks a Zod schema
tree and rebuilds it with every field optional at every depth, and one
type-level mirror, `DeepPartial`, a TypeScript conditional type intended to
compute the static shape of the transformed schema.

This file gives a shallow embedding of that code:

* `Schema` is the closed set of Zod node kinds the code dispatches on
  (`instanceof` checks on `z.ZodObject`, `z.ZodArray`, `z.ZodMap`,
  `z.ZodUnion`, `z.ZodIntersection`, `z.ZodRecord`, `z.ZodTuple`,
  `z.ZodLazy`, `z.ZodDiscriminatedUnion`, `z.ZodOptional`, `z.ZodNullable`)
  together with the wrapper and leaf kinds the fallback branch treats
  opaquely (`ZodDefault`, strings, numbers, booleans, literals, enums).
  A lazy node carries its deferred getter as a real closure
  (`Unit → Schema`), as in the source, so that deferral is observable.
* `zodDeepPartialInternal` is the recursive transformer of
  `zodDeepPartialInternal` in the source (latest revision, the one with the
  Optional/Nullable unwrap branches and the `isTopLevel` strict flag); its
  mutual helpers spell out the `for key in shape` / `options.map` loops.
  `.partial()` on a freshly built object is `applyPartial` (Zod's
  `ZodObject.partial()` wraps every property in `ZodOptional`), and
  `.strict()` is modelled by the object constructor's `strict` flag
  (Zod default objects are non-strict / strip unknown keys).
* `DeepPartial` is the type-level mirror from `src/types.ts` (latest
  revision): one branch per conditional arm, in the source's order, with the
  unmatched kinds (`ZodMap`, `ZodDiscriminatedUnion`) falling through to the
  identity fallback exactly as a kind not matched by any conditional does.
* `accepts` is the accept/reject semantics of Zod's `parse` on the embedded
  values (`Value`), fuel-indexed because lazy getters may unfold forever.
  Output-merging conflicts of intersections (which need output values, not
  accept/reject) are outside the claims and are not modelled; an
  intersection accepts when both sides accept.
* `Accepts s v` holds when some fuel suffices: the fuel-free acceptance
  predicate used for behavioural ("same accept/reject set") statements.
-/

/-- The data values fed to a schema's `parse`: JavaScript `undefined`,
`null`, strings, numbers, booleans, plain objects, arrays, and `Map`
contents (as a list of key/value pairs). -/
inductive Value where
  | undefined
  | vnull
  | str (s : String)
  | num (n : Int)
  | bool (b : Bool)
  | obj (fields : List (String × Value))
  | arr (items : List Value)
  | entries (pairs : List (Value × Value))

/-- Primitive literal payloads of `z.literal(...)`. -/
inductive Prim where
  | pstr (s : String)
  | pnum (n : Int)
  | pbool (b : Bool)
  | pnull
deriving DecidableEq

/-- The closed set of Zod schema node kinds the repository dispatches on,
plus the leaf kinds its fallback wraps opaquely. `object` carries Zod's
strict flag (`.strict()` sets it; `z.object(...)` leaves it unset). A
`lazy` node carries its getter as a real thunk, as in the source. -/
inductive Schema where
  | zstring
  | znumber
  | zboolean
  | literal (v : Prim)
  | zenum (vals : List String)
  | optional (inner : Schema)
  | nullable (inner : Schema)
  | zdefault (inner : Schema) (d : Value)
  | object (shape : List (String × Schema)) (strict : Bool)
  | array (elem : Schema)
  | zmap (keyType valueType : Schema)
  | union (options : List Schema)
  | intersection (left right : Schema)
  | record (keyType valueType : Schema)
  | tuple (items : List Schema)
  | lazy (getter : Unit → Schema)
  | dunion (discriminator : String) (options : List Schema)

/-- Zod's `ZodObject.partial()`: wrap every property of the shape in
`ZodOptional`. -/
def applyPartial (shape : List (String × Schema)) : List (String × Schema) :=
  shape.map (fun p => (p.1, Schema.optional p.2))

mutual

/-- The recursive worker `zodDeepPartialInternal(schema, isTopLevel)` of the
source: dispatch on the node kind (`instanceof` checks, in source order),
rebuild with transformed children, and mark results optional; `isTopLevel`
makes only the reassembled root object `.strict()`. The final catch-all
(`return (schema as any).optional()`) covers every kind without its own
branch — leaves and also `ZodDefault`, which the source never tests for. -/
def zodDeepPartialInternal (schema : Schema) (isTopLevel : Bool) : Schema :=
  match schema with
  | .optional inner => .optional (zodDeepPartialInternal inner false)
  | .nullable inner => .nullable (zodDeepPartialInternal inner false)
  | .object shape _ =>
      let result := Schema.object (applyPartial (transformShape shape)) false
      if isTopLevel then
        match result with
        | .object sh _ => .object sh true
        | r => r
      else result
  | .array elem => .optional (.array (zodDeepPartialInternal elem false))
  | .zmap k v =>
      .optional (.zmap (zodDeepPartialInternal k false) (zodDeepPartialInternal v false))
  | .union opts => .optional (.union (transformList opts))
  | .intersection l r =>
      .optional
        (.intersection (zodDeepPartialInternal l false) (zodDeepPartialInternal r false))
  | .record k v =>
      .optional (.record (zodDeepPartialInternal k false) (zodDeepPartialInternal v false))
  | .tuple items => .optional (.tuple (transformList items))
  | .lazy g => .optional (.lazy (fun u => zodDeepPartialInternal (g u) false))
  | .dunion disc opts => .dunion disc (transformDUOptions disc opts)
  | other => .optional other

/-- The `for (const key in shape)` loop of the object branch: each property
becomes `zodDeepPartialInternal(shape[key], false).optional()`. -/
def transformShape (shape : List (String × Schema)) : List (String × Schema) :=
  match shape with
  | [] => []
  | (k, s) :: rest =>
      (k, .optional (zodDeepPartialInternal s false)) :: transformShape rest

/-- The `options.map((opt) => zodDeepPartialInternal(opt, false))` /
`items.map(...)` loops of the union and tuple branches. -/
def transformList (opts : List Schema) : List Schema :=
  match opts with
  | [] => []
  | s :: rest => zodDeepPartialInternal s false :: transformList rest

/-- The `schema.options.map(...)` loop of the discriminated-union branch:
an `Object`-shaped option is rebuilt with `z.object(newShape)` (fresh,
non-strict object); any other option is generically transformed. -/
def transformDUOptions (disc : String) (opts : List Schema) : List Schema :=
  match opts with
  | [] => []
  | o :: rest =>
      (match o with
       | .object shape _ => Schema.object (transformDUShape disc shape) false
       | other => zodDeepPartialInternal other false) :: transformDUOptions disc rest

/-- The inner `for (const key in shape)` loop of the discriminated-union
branch: the discriminator's property is copied through unchanged; every
other property is transformed and wrapped `.optional()`. -/
def transformDUShape (disc : String) (shape : List (String × Schema)) :
    List (String × Schema) :=
  match shape with
  | [] => []
  | (k, s) :: rest =>
      (if k == disc then (k, s)
       else (k, .optional (zodDeepPartialInternal s false))) :: transformDUShape disc rest

end

/-- The public entry point `zodDeepPartial(schema)`:
`zodDeepPartialInternal(schema, true)`. -/
def zodDeepPartial (schema : Schema) : Schema :=
  zodDeepPartialInternal schema true

mutual

/-- The type-level mirror `DeepPartial<T>` of `src/types.ts` (latest
revision), embedded as a function on schema kinds: one equation per
conditional branch, in the source's order (Optional, Nullable, Default,
Object, Array, Union, Intersection, Record, Tuple, Lazy), and the final
fallback `: T` for every kind no conditional matches — which in the source
includes `ZodMap` and `ZodDiscriminatedUnion`, since no branch tests for
them. The Record branch is `ZodRecord<Key, DeepPartial<Value>>`: the key
type is left unchanged. -/
def DeepPartial (t : Schema) : Schema :=
  match t with
  | .optional inner => .optional (DeepPartial inner)
  | .nullable inner => .nullable (DeepPartial inner)
  | .zdefault inner d => .zdefault (DeepPartial inner) d
  | .object shape st => .object (DeepPartialShape shape) st
  | .array elem => .array (DeepPartial elem)
  | .union opts => .union (DeepPartialList opts)
  | .intersection l r => .intersection (DeepPartial l) (DeepPartial r)
  | .record k v => .record k (DeepPartial v)
  | .tuple items => .tuple (DeepPartialList items)
  | .lazy g => .lazy (fun u => DeepPartial (g u))
  | other => other

/-- The mapped object type `{ [K in keyof Shape]: DeepPartial<Shape[K]> }`. -/
def DeepPartialShape (shape : List (String × Schema)) : List (String × Schema) :=
  match shape with
  | [] => []
  | (k, s) :: rest => (k, DeepPartial s) :: DeepPartialShape rest

/-- The mapped tuple/union positions `{ [K in keyof Items]: DeepPartial<Items[K]> }`. -/
def DeepPartialList (items : List Schema) : List Schema :=
  match items with
  | [] => []
  | s :: rest => DeepPartial s :: DeepPartialList rest

end

/-- `p.matches v`: whether the literal payload equals the parsed value. -/
def Prim.matches : Prim → Value → Bool
  | .pstr s, .str t => s == t
  | .pnum n, .num m => n == m
  | .pbool b, .bool c => b == c
  | .pnull, .vnull => true
  | _, _ => false

/-- Reading a property of a parsed plain object; a missing property reads as
`undefined`, as in JavaScript. -/
def lookupField (fields : List (String × Value)) (k : String) : Value :=
  match fields.find? (fun p => p.1 == k) with
  | some p => p.2
  | none => .undefined

/-- The discriminator-map lookup of Zod's discriminated-union parse: an
option handles a discriminator value when it is an object whose
discriminator property is a literal equal to that value. -/
def discMatches (disc : String) (o : Schema) (dv : Value) : Bool :=
  match o with
  | .object shape _ =>
      match (shape.find? (fun p => p.1 == disc)).map Prod.snd with
      | some (.literal p) => p.matches dv
      | _ => false
  | _ => false

/-- Accept/reject semantics of Zod `parse` on the embedded nodes,
fuel-indexed (a lazy getter may unfold forever; out of fuel rejects).
Optional accepts `undefined` outright; nullable accepts `null` outright and
otherwise defers; a default wrapper accepts `undefined` (the default value
is substituted) and otherwise defers; an object checks every shape property
against the (possibly missing, hence `undefined`) input property and, when
strict, rejects input keys outside the shape; a non-strict object ignores
unknown keys (Zod strips them); a tuple admits at most as many items as
positions and parses missing trailing positions as `undefined`; a
discriminated union routes by the literal discriminator and rejects when no
option carries the input's discriminator value. -/
def accepts : Nat → Schema → Value → Bool
  | 0, _, _ => false
  | fuel + 1, schema, v =>
    match schema with
    | .zstring => (match v with | .str _ => true | _ => false)
    | .znumber => (match v with | .num _ => true | _ => false)
    | .zboolean => (match v with | .bool _ => true | _ => false)
    | .literal p => p.matches v
    | .zenum vals => (match v with | .str t => vals.contains t | _ => false)
    | .optional inner =>
        (match v with | .undefined => true | _ => accepts fuel inner v)
    | .nullable inner =>
        (match v with | .vnull => true | _ => accepts fuel inner v)
    | .zdefault inner _ =>
        (match v with | .undefined => true | _ => accepts fuel inner v)
    | .object shape strict =>
        (match v with
         | .obj fields =>
             shape.all (fun p => accepts fuel p.2 (lookupField fields p.1)) &&
               (!strict || fields.all (fun f => shape.any (fun p => p.1 == f.1)))
         | _ => false)
    | .array elem =>
        (match v with
         | .arr items => items.all (fun w => accepts fuel elem w)
         | _ => false)
    | .zmap k val =>
        (match v with
         | .entries pairs =>
             pairs.all (fun q => accepts fuel k q.1 && accepts fuel val q.2)
         | _ => false)
    | .union opts =>
        opts.any (fun o => accepts fuel o v)
    | .intersection l r => accepts fuel l v && accepts fuel r v
    | .record k val =>
        (match v with
         | .obj fields =>
             fields.all (fun f => accepts fuel k (.str f.1) && accepts fuel val f.2)
         | _ => false)
    | .tuple items =>
        (match v with
         | .arr vs =>
             decide (vs.length ≤ items.length) &&
               items.enum.all (fun p => accepts fuel p.2 (vs.getD p.1 .undefined))
         | _ => false)
    | .lazy g => accepts fuel (g ()) v
    | .dunion disc opts =>
        (match v with
         | .obj fields =>
             (match opts.find? (fun o => discMatches disc o (lookupField fields disc)) with
              | some o => accepts fuel o v
              | none => false)
         | _ => false)

/-- Fuel-free acceptance: some fuel suffices. This is the behavioural
accept set of a produced schema. -/
def Accepts (s : Schema) (v : Value) : Prop :=
  ∃ fuel, accepts fuel s v = true

/-- Whether a node is a leaf kind (scalar/enum/literal): transformed by the
fallback branch only. -/
def Schema.isLeafNode : Schema → Bool
  | .zstring | .znumber | .zboolean | .literal _ | .zenum _ => true
  | _ => false

/-- Whether a parsed value is JavaScript `undefined`. -/
def Value.isUndefined : Value → Bool
  | .undefined => true
  | _ => false

/-- Whether a parsed value is JavaScript `null`. -/
def Value.isNull : Value → Bool
  | .vnull => true
  | _ => false

/-- The per-option body of the discriminated-union branch's `options.map`. -/
def duOptionMap (disc : String) (o : Schema) : Schema :=
  match o with
  | .object shape _ => .object (transformDUShape disc shape) false
  | other => zodDeepPartialInternal other false

theorem transformShape_eq_map (shape : List (String × Schema)) :
    transformShape shape
      = shape.map (fun p => (p.1, .optional (zodDeepPartialInternal p.2 false))) := by
  induction shape with
  | nil => rfl
  | cons p rest ih => cases p; simp [transformShape, ih]

theorem transformList_eq_map (l : List Schema) :
    transformList l = l.map (fun s => zodDeepPartialInternal s false) := by
  induction l with
  | nil => rfl
  | cons s rest ih => simp [transformList, ih]

theorem transformDUShape_eq_map (disc : String) (shape : List (String × Schema)) :
    transformDUShape disc shape
      = shape.map (fun p =>
          if p.1 == disc then p
          else (p.1, .optional (zodDeepPartialInternal p.2 false))) := by
  induction shape with
  | nil => rfl
  | cons p rest ih => cases p; simp [transformDUShape, ih]

theorem transformDUOptions_eq_map (disc : String) (opts : List Schema) :
    transformDUOptions disc opts = opts.map (duOptionMap disc) := by
  induction opts with
  | nil => rfl
  | cons o rest ih =>
      cases o <;> simp [transformDUOptions, duOptionMap, ih, zodDeepPartialInternal]

theorem transformShape_keys (shape : List (String × Schema)) :
    (transformShape shape).map Prod.fst = shape.map Prod.fst := by
  simp [transformShape_eq_map]

theorem applyPartial_keys (shape : List (String × Schema)) :
    (applyPartial shape).map Prod.fst = shape.map Prod.fst := by
  simp [applyPartial]

theorem optional_of_mem_applyPartial {p : String × Schema}
    {shape : List (String × Schema)} (h : p ∈ applyPartial shape) :
    ∃ t, p.2 = Schema.optional t := by
  rcases List.mem_map.mp h with ⟨q, _, rfl⟩
  exact ⟨q.2, rfl⟩

theorem accepts_succ_optional (f : Nat) (s : Schema) (v : Value) :
    accepts (f + 1) (.optional s) v
      = (if v.isUndefined then true else accepts f s v) := by
  cases v <;> rfl

theorem accepts_succ_nullable (f : Nat) (s : Schema) (v : Value) :
    accepts (f + 1) (.nullable s) v
      = (if v.isNull then true else accepts f s v) := by
  cases v <;> rfl

theorem Accepts_optional_iff (s : Schema) (v : Value) :
    Accepts (.optional s) v ↔ v.isUndefined = true ∨ Accepts s v := by
  constructor
  · rintro ⟨fuel, h⟩
    cases fuel with
    | zero => simp [accepts] at h
    | succ f =>
        rw [accepts_succ_optional] at h
        by_cases hv : v.isUndefined
        · exact Or.inl hv
        · exact Or.inr ⟨f, by simpa [hv] using h⟩
  · rintro (hv | ⟨fuel, h⟩)
    · exact ⟨1, by rw [accepts_succ_optional, hv]; rfl⟩
    · exact ⟨fuel + 1, by rw [accepts_succ_optional]; split <;> simp [h]⟩

theorem Accepts_nullable_iff (s : Schema) (v : Value) :
    Accepts (.nullable s) v ↔ v.isNull = true ∨ Accepts s v := by
  constructor
  · rintro ⟨fuel, h⟩
    cases fuel with
    | zero => simp [accepts] at h
    | succ f =>
        rw [accepts_succ_nullable] at h
        by_cases hv : v.isNull
        · exact Or.inl hv
        · exact Or.inr ⟨f, by simpa [hv] using h⟩
  · rintro (hv | ⟨fuel, h⟩)
    · exact ⟨1, by rw [accepts_succ_nullable, hv]; rfl⟩
    · exact ⟨fuel + 1, by rw [accepts_succ_nullable]; split <;> simp [h]⟩

theorem leaf_fallback {s : Schema} (h : s.isLeafNode = true) (r : Bool) :
    zodDeepPartialInternal s r = .optional s := by
  cases s <;> first | rfl | simp [Schema.isLeafNode] at h

/-- C6: for every Lazy input node, the transform returns — eagerly and by
definitional computation, with the original getter `g` occurring only inside
the replacement closure, hence never invoked during this step — a new Lazy
node marked Optional whose replacement getter, when later invoked, applies
the transform with `isRoot = false` to whatever node the original getter
yields. -/
theorem c6_lazy_deferred (g : Unit → Schema) (r : Bool) :
    zodDeepPartialInternal (.lazy g) r
      = .optional (.lazy (fun u => zodDeepPartialInternal (g u) false)) := rfl

/-- C7: for every Nullable-wrapped input node, the transform unwraps the
inner child, transforms it with `isRoot = false`, and re-wraps the result as
Nullable — not Optional. -/
theorem c7_nullable_rewrap (inner : Schema) (r : Bool) :
    zodDeepPartialInternal (.nullable inner) r
        = .nullable (zodDeepPartialInternal inner false) ∧
      ∀ t, zodDeepPartialInternal (.nullable inner) r ≠ .optional t := by
  refine ⟨rfl, fun t h => ?_⟩
  exact Schema.noConfusion h

/-- C4: the claim says a Default-wrapped node is unwrapped, its child
transformed with `isRoot = false`, and the result re-wrapped as a Default
carrying the original default value. The code has no `ZodDefault` branch:
a Default node falls into the fallback, which wraps the whole untransformed
node in Optional. First conjunct: what the code actually does on every
Default node. Second conjunct: at the concrete failing input
`z.string().default("x")`, the code's result is not the claimed
re-wrapped Default. -/
theorem c4_default_fallback (inner : Schema) (d : Value) (r : Bool) :
    zodDeepPartialInternal (.zdefault inner d) r = .optional (.zdefault inner d) ∧
      zodDeepPartial (.zdefault .zstring (.str "x"))
        ≠ .zdefault (zodDeepPartialInternal .zstring false) (.str "x") := by
  refine ⟨rfl, fun h => ?_⟩
  exact Schema.noConfusion h

/-- C3: the claim says the type mirror has one branch per node kind handled
by the runtime transformer and vice versa, in matching order, so that the
computed static shape matches the runtime result for every kind. The code
diverges: the runtime has no Default branch (a Default node falls into the
Optional-wrapping fallback) while the mirror transforms Default's inner
type and keeps the wrapper; and the runtime handles Map (and
DiscriminatedUnion) specially while the mirror's conditionals never match
them, returning them unchanged. Both divergences are exhibited at concrete
inputs, where mirror and runtime results differ. -/
theorem c3_mirror_divergence :
    DeepPartial (.zdefault .zstring (.str "x")) = .zdefault .zstring (.str "x") ∧
      zodDeepPartial (.zdefault .zstring (.str "x"))
        = .optional (.zdefault .zstring (.str "x")) ∧
      DeepPartial (.zdefault .zstring (.str "x"))
        ≠ zodDeepPartial (.zdefault .zstring (.str "x")) ∧
      DeepPartial (.zmap .zstring .znumber) = .zmap .zstring .znumber ∧
      zodDeepPartial (.zmap .zstring .znumber)
        = .optional (.zmap (.optional .zstring) (.optional .znumber)) ∧
      DeepPartial (.zmap .zstring .znumber) ≠ zodDeepPartial (.zmap .zstring .znumber) := by
  refine ⟨rfl, rfl, fun h => ?_, rfl, rfl, fun h => ?_⟩
  · exact Schema.noConfusion h
  · exact Schema.noConfusion h

/-- C2: for a DiscriminatedUnion whose options are all Object-shaped, the
transform rebuilds each option by copying the discriminator property's child
through unchanged (still required), transforming every other property with
`isRoot = false` and wrapping it Optional, rebuilds each option as a fresh
(non-strict) Object, and returns the DiscriminatedUnion over the
transformed options with the same discriminator name, without wrapping the
result in Optional. -/
theorem c2_dunion_rebuild (disc : String) (opts : List Schema) (r : Bool)
    (h : ∀ o ∈ opts, ∃ sh st, o = Schema.object sh st) :
    ∃ opts', zodDeepPartialInternal (.dunion disc opts) r = .dunion disc opts' ∧
      opts'.length = opts.length ∧
      (∀ o' ∈ opts', ∃ sh', o' = Schema.object sh' false) ∧
      ∀ (i : Nat) sh st, opts[i]? = some (Schema.object sh st) →
        opts'[i]? = some (Schema.object (sh.map (fun p =>
          if p.1 == disc then p
          else (p.1, Schema.optional (zodDeepPartialInternal p.2 false)))) false) := by
  refine ⟨transformDUOptions disc opts, rfl, ?_, ?_, ?_⟩
  · rw [transformDUOptions_eq_map]; exact List.length_map _ _
  · rw [transformDUOptions_eq_map]
    intro o' ho'
    rcases List.mem_map.mp ho' with ⟨o, ho, rfl⟩
    rcases h o ho with ⟨sh, st, rfl⟩
    exact ⟨transformDUShape disc sh, rfl⟩
  · intro i sh st hi
    rw [transformDUOptions_eq_map, List.getElem?_map, hi]
    simp [duOptionMap, transformDUShape_eq_map]

/-- Witness for C2 at a concrete one-option discriminated union. -/
theorem c2_dunion_rebuild_witness :
    (∀ o ∈ [Schema.object [("type", Schema.literal (.pstr "A")), ("a", Schema.zstring)] false],
        ∃ sh st, o = Schema.object sh st) ∧
      ∃ opts', zodDeepPartialInternal
          (.dunion "type"
            [Schema.object [("type", Schema.literal (.pstr "A")), ("a", Schema.zstring)] false])
          false
        = .dunion "type" opts' ∧
      opts'.length = 1 ∧
      (∀ o' ∈ opts', ∃ sh', o' = Schema.object sh' false) ∧
      ∀ (i : Nat) sh st,
        [Schema.object [("type", Schema.literal (.pstr "A")), ("a", Schema.zstring)] false][i]?
          = some (Schema.object sh st) →
        opts'[i]? = some (Schema.object (sh.map (fun p =>
          if p.1 == "type" then p
          else (p.1, Schema.optional (zodDeepPartialInternal p.2 false)))) false) := by
  refine ⟨?_, c2_dunion_rebuild "type" _ false ?_⟩ <;>
    · intro o ho
      simp only [List.mem_singleton] at ho
      exact ⟨_, _, ho⟩

/-- C8: the claim says a DiscriminatedUnion option that is not Object-shaped
makes `deepPartial` fail fast with a construction error and is never
silently coerced. The transformer has no failure path: at the concrete
malformed input (an option that is a bare string schema) it returns
normally, with the non-Object option silently passed through the generic
transform (wrapped Optional by the fallback) and included in the rebuilt
DiscriminatedUnion. -/
theorem c8_counterexample :
    zodDeepPartial
        (.dunion "type"
          [Schema.object [("type", .literal (.pstr "A")), ("a", .zstring)] false,
           Schema.zstring])
      = .dunion "type"
          [Schema.object
             [("type", .literal (.pstr "A")), ("a", .optional (.optional .zstring))] false,
           .optional .zstring] := by
  simp [zodDeepPartial, zodDeepPartialInternal, transformDUOptions, transformDUShape,
    transformShape]

/-- C8 (amended): a DiscriminatedUnion option that is not Object-shaped is
not failed fast: the transformer is total and generically transforms that
option with `isRoot = false` (as the §4.1 case-10 fallback describes),
keeping it at its position in the rebuilt DiscriminatedUnion; no
construction error arises in this repository's code. -/
theorem c8_amended (disc : String) (opts : List Schema) (r : Bool) (i : Nat) (o : Schema)
    (ho : opts[i]? = some o) (hno : ∀ sh st, o ≠ Schema.object sh st) :
    ∃ opts', zodDeepPartialInternal (.dunion disc opts) r = .dunion disc opts' ∧
      opts'[i]? = some (zodDeepPartialInternal o false) := by
  refine ⟨transformDUOptions disc opts, rfl, ?_⟩
  rw [transformDUOptions_eq_map, List.getElem?_map, ho]
  cases o with
  | object sh st => exact absurd rfl (hno sh st)
  | _ => rfl

/-- Witness for the amended C8 at a discriminated union with a bare string
option. -/
theorem c8_amended_witness :
    [Schema.object [("type", Schema.literal (.pstr "A"))] false, Schema.zstring][1]?
        = some Schema.zstring ∧
      (∀ sh st, Schema.zstring ≠ Schema.object sh st) ∧
      ∃ opts', zodDeepPartialInternal
          (.dunion "type"
            [Schema.object [("type", Schema.literal (.pstr "A"))] false, Schema.zstring]) true
        = .dunion "type" opts' ∧
      opts'[1]? = some (zodDeepPartialInternal Schema.zstring false) :=
  ⟨rfl, fun _ _ h => Schema.noConfusion h,
    c8_amended "type" _ true 1 Schema.zstring rfl (fun _ _ h => Schema.noConfusion h)⟩

/-- C10: the transformation preserves, between the input node and the
corresponding node in the output, the set (indeed the ordered list) of
object field names, the tuple arity, the union branch count, the two
intersection operands, the array's single-element structure, and the
discriminated-union branch count. -/
theorem c10_shape_preservation (shape : List (String × Schema)) (st : Bool)
    (elem left right : Schema) (opts items duopts : List Schema)
    (disc : String) (r : Bool) :
    (∃ sh' st', zodDeepPartialInternal (.object shape st) r = .object sh' st' ∧
        sh'.map Prod.fst = shape.map Prod.fst) ∧
      (∃ elem', zodDeepPartialInternal (.array elem) r = .optional (.array elem')) ∧
      (∃ items', zodDeepPartialInternal (.tuple items) r = .optional (.tuple items') ∧
        items'.length = items.length) ∧
      (∃ opts', zodDeepPartialInternal (.union opts) r = .optional (.union opts') ∧
        opts'.length = opts.length) ∧
      (∃ l' r', zodDeepPartialInternal (.intersection left right) r
        = .optional (.intersection l' r')) ∧
      (∃ duopts', zodDeepPartialInternal (.dunion disc duopts) r = .dunion disc duopts' ∧
        duopts'.length = duopts.length) := by
  refine ⟨⟨applyPartial (transformShape shape), ?_, ?_, ?_⟩, ⟨_, rfl⟩,
    ⟨transformList items, rfl, ?_⟩, ⟨transformList opts, rfl, ?_⟩, ⟨_, _, rfl⟩,
    ⟨transformDUOptions disc duopts, rfl, ?_⟩⟩
  · exact if r then true else false
  · cases r <;> rfl
  · rw [applyPartial_keys, transformShape_keys]
  · rw [transformList_eq_map]; exact List.length_map _ _
  · rw [transformList_eq_map]; exact List.length_map _ _
  · rw [transformDUOptions_eq_map]; exact List.length_map _ _

theorem accepts_succ_object (f : Nat) (sh : List (String × Schema)) (b : Bool)
    (fields : List (String × Value)) :
    accepts (f + 1) (.object sh b) (.obj fields)
      = (sh.all (fun p => accepts f p.2 (lookupField fields p.1)) &&
          (!b || fields.all (fun fld => sh.any (fun p => p.1 == fld.1)))) := rfl

/-- C1: only the outermost reassembled Object is closed. First conjunct: a
root-level Object transform is strict, so a value with a key outside the
root shape is rejected at every fuel. Second conjunct: an Object rebuilt by
any nested (`isRoot = false`) call is non-strict. Third conjunct: at a
concrete two-level schema, an unrecognized key inside the nested object
value is accepted. -/
theorem c1_root_strict_only (shape : List (String × Schema)) (st : Bool)
    (fields : List (String × Value)) (k : String)
    (hk : k ∈ fields.map Prod.fst) (hnot : k ∉ shape.map Prod.fst) :
    (∀ fuel, accepts fuel (zodDeepPartial (.object shape st)) (.obj fields) = false) ∧
      (∀ sh2 st2, zodDeepPartialInternal (.object sh2 st2) false
        = .object (applyPartial (transformShape sh2)) false) ∧
      accepts 10
        (zodDeepPartial (.object [("outer", Schema.object [("name", .zstring)] false)] false))
        (.obj [("outer", .obj [("name", .str "x"), ("extra", .str "y")])]) = true := by
  refine ⟨?_, fun sh2 st2 => rfl, by decide⟩
  intro fuel
  cases fuel with
  | zero => rfl
  | succ f =>
      show accepts (f + 1) (.object (applyPartial (transformShape shape)) true)
        (.obj fields) = false
      rw [accepts_succ_object]
      rcases List.mem_map.mp hk with ⟨fld, hfld, rfl⟩
      cases hall : fields.all
          (fun fld => (applyPartial (transformShape shape)).any (fun p => p.1 == fld.1)) with
      | false => simp [hall]
      | true =>
          exfalso
          rcases List.any_eq_true.mp (List.all_eq_true.mp hall fld hfld)
            with ⟨p, hp, hpk⟩
          have hkmem : fld.1 ∈ (applyPartial (transformShape shape)).map Prod.fst :=
            List.mem_map.mpr ⟨p, hp, eq_of_beq hpk⟩
          rw [applyPartial_keys, transformShape_keys] at hkmem
          exact hnot hkmem

/-- Witness for C1: `Object{name: string}` transformed rejects
`{name: "test", extra: "field"}` at the root. -/
theorem c1_root_strict_only_witness :
    ("extra" ∈ ([("name", Value.str "test"), ("extra", Value.str "field")].map Prod.fst)) ∧
      ("extra" ∉ ([("name", Schema.zstring)].map Prod.fst)) ∧
      ((∀ fuel, accepts fuel (zodDeepPartial (.object [("name", Schema.zstring)] false))
          (.obj [("name", Value.str "test"), ("extra", Value.str "field")]) = false) ∧
        (∀ sh2 st2, zodDeepPartialInternal (.object sh2 st2) false
          = .object (applyPartial (transformShape sh2)) false) ∧
        accepts 10
          (zodDeepPartial
            (.object [("outer", Schema.object [("name", .zstring)] false)] false))
          (.obj [("outer", .obj [("name", .str "x"), ("extra", .str "y")])]) = true) :=
  ⟨by decide, by decide,
    c1_root_strict_only [("name", Schema.zstring)] false _ "extra" (by decide) (by decide)⟩

/-- C9: the claim says every schema produced by `deepPartial` accepts an
empty/absent value at every nesting level, an Object anywhere in the result
accepting `{}`. Counterexample at a concrete discriminated-union input: the
produced schema (shown explicitly in the first conjunct) rejects the empty
object at the root, and the produced option Object inside it (whose
discriminator stays required) also rejects `{}`. -/
theorem c9_counterexample :
    zodDeepPartial
        (.dunion "type"
          [Schema.object [("type", .literal (.pstr "A")), ("a", .zstring)] false])
      = .dunion "type"
          [Schema.object
            [("type", .literal (.pstr "A")), ("a", .optional (.optional .zstring))] false] ∧
      accepts 10
        (zodDeepPartial
          (.dunion "type"
            [Schema.object [("type", .literal (.pstr "A")), ("a", .zstring)] false]))
        (.obj []) = false ∧
      accepts 10
        (Schema.object
          [("type", Schema.literal (.pstr "A")), ("a", .optional (.optional .zstring))] false)
        (.obj []) = false := by
  refine ⟨?_, by decide, by decide⟩
  simp [zodDeepPartial, zodDeepPartialInternal, transformDUOptions, transformDUShape]

/-- C9 (amended): outside DiscriminatedUnion nodes and their option objects
(which keep the discriminator required), empty/absent values are accepted:
every Object rebuilt by the Object rule — at the root or nested — accepts
the empty object, and a transformed tuple, union, or array at the root
accepts an absent value; two units of fuel suffice. -/
theorem c9_amended (shape : List (String × Schema)) (st r : Bool)
    (items opts : List Schema) (elem : Schema) (fuel : Nat) (h : 2 ≤ fuel) :
    accepts fuel (zodDeepPartialInternal (.object shape st) r) (.obj []) = true ∧
      accepts fuel (zodDeepPartial (.tuple items)) .undefined = true ∧
      accepts fuel (zodDeepPartial (.union opts)) .undefined = true ∧
      accepts fuel (zodDeepPartial (.array elem)) .undefined = true := by
  obtain ⟨f, rfl⟩ : ∃ f, fuel = f + 2 := ⟨fuel - 2, by omega⟩
  have hall : (applyPartial (transformShape shape)).all
      (fun p => accepts (f + 1) p.2 (lookupField [] p.1)) = true := by
    refine List.all_eq_true.mpr (fun p hp => ?_)
    rcases optional_of_mem_applyPartial hp with ⟨t, ht⟩
    rw [show lookupField [] p.1 = .undefined from rfl, ht, accepts_succ_optional]
    rfl
  refine ⟨?_, ?_, ?_, ?_⟩
  · cases r with
    | false =>
        show accepts (f + 1 + 1) (.object (applyPartial (transformShape shape)) false)
          (.obj []) = true
        rw [accepts_succ_object, hall]; rfl
    | true =>
        show accepts (f + 1 + 1) (.object (applyPartial (transformShape shape)) true)
          (.obj []) = true
        rw [accepts_succ_object, hall]; rfl
  · show accepts (f + 1 + 1) (.optional (.tuple (transformList items))) .undefined = true
    rw [accepts_succ_optional]; rfl
  · show accepts (f + 1 + 1) (.optional (.union (transformList opts))) .undefined = true
    rw [accepts_succ_optional]; rfl
  · show accepts (f + 1 + 1)
      (.optional (.array (zodDeepPartialInternal elem false))) .undefined = true
    rw [accepts_succ_optional]; rfl

/-- Witness for the amended C9 at concrete schemas and fuel 2. -/
theorem c9_amended_witness :
    2 ≤ 2 ∧
      (accepts 2 (zodDeepPartialInternal (.object [("name", Schema.zstring)] false) true)
          (.obj []) = true ∧
        accepts 2 (zodDeepPartial (.tuple [Schema.zstring])) .undefined = true ∧
        accepts 2 (zodDeepPartial (.union [Schema.zstring])) .undefined = true ∧
        accepts 2 (zodDeepPartial (.array Schema.zstring)) .undefined = true) :=
  ⟨by decide, c9_amended [("name", Schema.zstring)] false true [Schema.zstring]
    [Schema.zstring] Schema.zstring 2 (by decide)⟩

/-- C5: wrapper idempotence. For an already-Optional or already-Nullable
leaf, applying the transform twice yields a schema with the same
accept/reject set as applying it once (the extra Optional layer the second
pass stacks on is a behavioural no-op), and in general stacking `optional`
on an already-optional schema does not change the accept set. -/
theorem c5_wrapper_idempotence (leaf : Schema) (h : leaf.isLeafNode = true) :
    (∀ v, Accepts (zodDeepPartial (zodDeepPartial (.optional leaf))) v ↔
        Accepts (zodDeepPartial (.optional leaf)) v) ∧
      (∀ v, Accepts (zodDeepPartial (zodDeepPartial (.nullable leaf))) v ↔
        Accepts (zodDeepPartial (.nullable leaf)) v) ∧
      (∀ s v, Accepts (.optional (.optional s)) v ↔ Accepts (.optional s) v) := by
  have h1 : zodDeepPartial (.optional leaf) = .optional (.optional leaf) := by
    show Schema.optional (zodDeepPartialInternal leaf false) = _
    rw [leaf_fallback h]
  have h1n : zodDeepPartial (.nullable leaf) = .nullable (.optional leaf) := by
    show Schema.nullable (zodDeepPartialInternal leaf false) = _
    rw [leaf_fallback h]
  have hinner : zodDeepPartialInternal (.optional leaf) false = .optional (.optional leaf) := by
    show Schema.optional (zodDeepPartialInternal leaf false) = _
    rw [leaf_fallback h]
  refine ⟨fun v => ?_, fun v => ?_, fun s v => ?_⟩
  · have h2 : zodDeepPartial (zodDeepPartial (.optional leaf))
        = .optional (.optional (.optional leaf)) := by
      rw [h1]
      show Schema.optional (zodDeepPartialInternal (.optional leaf) false) = _
      rw [hinner]
    rw [h2, h1]
    simp only [Accepts_optional_iff]
    tauto
  · have h2 : zodDeepPartial (zodDeepPartial (.nullable leaf))
        = .nullable (.optional (.optional leaf)) := by
      rw [h1n]
      show Schema.nullable (zodDeepPartialInternal (.optional leaf) false) = _
      rw [hinner]
    rw [h2, h1n]
    simp only [Accepts_nullable_iff, Accepts_optional_iff]
    tauto
  · simp only [Accepts_optional_iff]
    tauto

/-- Witness for C5 at the string leaf. -/
theorem c5_wrapper_idempotence_witness :
    Schema.isLeafNode .zstring = true ∧
      ((∀ v, Accepts (zodDeepPartial (zodDeepPartial (.optional .zstring))) v ↔
          Accepts (zodDeepPartial (.optional .zstring)) v) ∧
        (∀ v, Accepts (zodDeepPartial (zodDeepPartial (.nullable .zstring))) v ↔
          Accepts (zodDeepPartial (.nullable .zstring)) v) ∧
        (∀ s v, Accepts (.optional (.optional s)) v ↔ Accepts (.optional s) v)) :=
  ⟨rfl, c5_wrapper_idempotence .zstring rfl⟩
